import Mathlib

/-!
Verification development for the grocery-flyer application.

The definitions below are shallow Lean embeddings of the TypeScript
source: pure functions are translated directly; React state updates are
modelled as explicit state-passing functions; JavaScript numbers are
modelled as exact rationals (ℚ); code that can throw is modelled with
`Option`/`Except`.  Browser / library builtins that the source calls
(`parseFloat`, `Number.prototype.toFixed`, the WHATWG `URL` constructor,
Konva's `Stage.toDataURL`) are modelled from their documented semantics.
-/

/- ===== utils/format.ts ===== -/

/-- Model of `clamp` from utils/format.ts:
`const clamp=(n,min,max)=>Math.max(min,Math.min(max,n))`. -/
def clamp (n lo hi : ℚ) : ℚ := max lo (min hi n)

/- ===== components/CanvasComposer.tsx : canvas constants ===== -/

def CANVAS_W : ℚ := 2550
def CANVAS_H : ℚ := 3300
def MARGIN : ℚ := 120

/- ===== components/CanvasComposer.tsx : sectionMetrics ===== -/

/-- Result record of `sectionMetrics` (CanvasComposer.tsx): header height,
row height, font size, total section height and the column-width split. -/
structure SectionMetrics where
  headerH : ℚ
  rowH : ℚ
  fs : ℚ
  height : ℚ
  usable : ℚ
  nameW : ℚ
  sizeW : ℚ
  priceW : ℚ
  deriving Repr, DecidableEq

/-- The density scale computed inside `sectionMetrics`:
`clamp(maxRows / Math.max(rowsLen, 1), 0.85, 1)` with `maxRows = 30`.
(`rowsLen` is a JS array length, hence a natural number.) -/
def densityScale (rowsLen : ℕ) : ℚ :=
  clamp (30 / (max rowsLen 1 : ℕ)) (85/100) 1

/-- Model of `sectionMetrics(rowsLen, fontScale)` from CanvasComposer.tsx:
`usable = 2550 - 2*MARGIN`, `headerH = 120`, `rowHBase = 72`,
`scale = densityScale * fontScale`, `rowH = rowHBase * scale`,
`fs = 36 * scale`, `height = headerH + 20 + rowsLen * rowH`, and the
60/15/25 column split of the usable width. -/
def sectionMetrics (rowsLen : ℕ) (fontScale : ℚ) : SectionMetrics :=
  let usable : ℚ := 2550 - 2 * MARGIN
  let headerH : ℚ := 120
  let rowHBase : ℚ := 72
  let scale := densityScale rowsLen * fontScale
  let rowH := rowHBase * scale
  { headerH := headerH
    rowH := rowH
    fs := 36 * scale
    height := headerH + 20 + (rowsLen : ℚ) * rowH
    usable := usable
    nameW := usable * (60/100)
    sizeW := usable * (15/100)
    priceW := usable * (25/100) }

/- ===== utils/xlsx.ts : data model (shared record types) ===== -/

/-- `Row` from utils/xlsx.ts. -/
structure Row where
  name : String
  size : String
  price : String
  deriving Repr, DecidableEq

/-- `FeaturedItem` from utils/xlsx.ts. -/
structure FeaturedItem where
  name : String
  size : String
  price : String
  imageUrl : String
  deriving Repr, DecidableEq

/- ===== components/CanvasComposer.tsx : GroupsLayer stacking ===== -/

/-- Vertical offsets of the three stacked sections computed by
`GroupsLayer` (CanvasComposer.tsx): `top = 580`,
`gap = rowH => rowH * 0.5`,
`yFrozen = top`,
`yMeat = yFrozen + frozenM.height + gap(meatM.rowH)`,
`yProd = yMeat + meatM.height + gap(produceM.rowH)`.
Only the list lengths enter the metrics, exactly as in the source
(`sectionMetrics(frozen.length, scale)` etc.). -/
def groupsOffsets (frozen meat produce : List Row) (scale : ℚ) : ℚ × ℚ × ℚ :=
  let top : ℚ := 580
  let frozenM := sectionMetrics frozen.length scale
  let meatM := sectionMetrics meat.length scale
  let produceM := sectionMetrics produce.length scale
  let gap : ℚ → ℚ := fun rowH => rowH * (1/2)
  let yFrozen := top
  let yMeat := yFrozen + frozenM.height + gap meatM.rowH
  let yProd := yMeat + meatM.height + gap produceM.rowH
  (yFrozen, yMeat, yProd)

/- ===== components/CanvasComposer.tsx : PriceBadge ===== -/

/-- Badge scale step from `PriceBadge` (CanvasComposer.tsx):
`len >= 6 ? 1.28 : len >= 5 ? 1.16 : len >= 4 ? 1.06 : 0.96`
where `len = price.length`. -/
def priceBadgeScale (price : String) : ℚ :=
  let len := price.length
  if 6 ≤ len then 128/100 else if 5 ≤ len then 116/100
  else if 4 ≤ len then 106/100 else 96/100

/-- Geometry produced by `PriceBadge`: `W = 240*scale`, `H = 130*scale`,
`font = (len >= 5 ? 60 : 56) * scale` plus the per-style shape radii. -/
structure PriceBadgeGeom where
  scale : ℚ
  W : ℚ
  H : ℚ
  font : ℚ
  depth : ℚ
  pillR : ℚ
  badgeR : ℚ
  circleR : ℚ
  deriving Repr, DecidableEq

/-- Model of the size computations in `PriceBadge` (CanvasComposer.tsx). -/
def priceBadgeGeom (price : String) : PriceBadgeGeom :=
  let len := price.length
  let scale := priceBadgeScale price
  let baseW : ℚ := 240
  let baseH : ℚ := 130
  let W := baseW * scale
  let H := baseH * scale
  { scale := scale
    W := W
    H := H
    font := (if 5 ≤ len then (60:ℚ) else 56) * scale
    depth := 18 * scale
    pillR := 70 * scale
    badgeR := 24 * scale
    circleR := max W H / 2 }

example : priceBadgeScale "$1234.56" = 128/100 := by
  have h : "$1234.56".length = 8 := by decide
  norm_num [priceBadgeScale, h]
example : priceBadgeScale "$5.00" = 116/100 := by
  have h : "$5.00".length = 5 := by decide
  norm_num [priceBadgeScale, h]
example : (groupsOffsets (List.replicate 3 ⟨"", "", ""⟩)
    (List.replicate 5 ⟨"", "", ""⟩) (List.replicate 2 ⟨"", "", ""⟩) 1).2.1 = 972 := by
  norm_num [groupsOffsets, sectionMetrics, densityScale, clamp, MARGIN, max_def, min_def]

/- ===== generic character-list helpers (used to model JS string builtins) ===== -/

/-- When `pat` is an initial segment of `l`, returns the remainder of `l`. -/
def dropLeading : List Char → List Char → Option (List Char)
  | [], l => some l
  | _ :: _, [] => none
  | p :: ps, c :: cs => if c = p then dropLeading ps cs else none

/-- Splits `l` at the first occurrence of the sub-sequence `sep`,
returning the parts before and after it. -/
def splitFirstSub (sep : List Char) : List Char → Option (List Char × List Char)
  | [] =>
    match dropLeading sep [] with
    | some rest => some ([], rest)
    | none => none
  | c :: cs =>
    match dropLeading sep (c :: cs) with
    | some rest => some ([], rest)
    | none =>
      match splitFirstSub sep cs with
      | some (pre, post) => some (c :: pre, post)
      | none => none

/-- Whether `sub` occurs as a contiguous sub-sequence of `l`. -/
def containsSub (sub l : List Char) : Bool := (splitFirstSub sub l).isSome

/-- Splits on every occurrence of a single character (like JS `split`). -/
def splitOnChar (sep : Char) : List Char → List (List Char)
  | [] => [[]]
  | c :: cs =>
    let r := splitOnChar sep cs
    if c = sep then [] :: r
    else
      match r with
      | h :: t => (c :: h) :: t
      | [] => [[c]]

/-- Association-list lookup by string key (models `obj[key]` / `Map.get`). -/
def lookupAssoc {α : Type} (k : String) : List (String × α) → Option α
  | [] => none
  | (k2, v) :: rest => if k2 = k then some v else lookupAssoc k rest

/-- Model of JS `String.prototype.trim` on a character list. -/
def trimChars (l : List Char) : List Char :=
  ((l.dropWhile Char.isWhitespace).reverse.dropWhile Char.isWhitespace).reverse

/-- Model of JS `String.prototype.startsWith`. -/
def startsWithStr (pre s : String) : Bool := (dropLeading pre.toList s.toList).isSome

/- ===== utils/drive.ts ===== -/

/-- The parts of a parsed WHATWG URL that `extractDriveId` consults. -/
structure JsUrl where
  pathname : List Char
  search : List (String × String)
  deriving Repr, DecidableEq

/-- Query-string parsing for `URLSearchParams`: split on `&`, key before the
first `=`, value after it (percent-decoding is not modelled; Drive ids never
need it). -/
def parseQuery (q : List Char) : List (String × String) :=
  (splitOnChar '&' q).filterMap fun part =>
    match part with
    | [] => none
    | _ =>
      match splitFirstSub ['='] part with
      | some (k, v) => some (String.mk k, String.mk v)
      | none => some (String.mk part, "")

/-- Model of the `new URL(s)` constructor for absolute URLs of the form
`<scheme>://<host><pathname>?<query>`: the scheme is a leading letter
followed by letters/digits/`+`/`-`/`.` and a `:`; a string without such a
scheme prefix (e.g. a bare Drive id) makes the constructor throw, modelled
as `none`. -/
def jsNewURL (s : String) : Option JsUrl :=
  let cs := s.toList
  let scheme := cs.takeWhile fun c => c.isAlpha || c.isDigit || c == '+' || c == '-' || c == '.'
  match cs.drop scheme.length with
  | ':' :: rest =>
    match scheme with
    | c0 :: _ =>
      if c0.isAlpha then
        let afterSlashes :=
          match rest with
          | '/' :: '/' :: r => r
          | r => r
        let host := afterSlashes.takeWhile fun c => !(c == '/' || c == '?' || c == '#')
        let afterHost := afterSlashes.drop host.length
        let path := afterHost.takeWhile fun c => !(c == '?' || c == '#')
        let afterPath := afterHost.drop path.length
        let query :=
          match afterPath with
          | '?' :: q => q.takeWhile fun c => !(c == '#')
          | _ => []
        some { pathname := if path = [] then ['/'] else path, search := parseQuery query }
      else none
    | [] => none
  | _ => none

/-- The regex match `u.pathname.match(/\/file\/d\/([^/]+)/)` from
`extractDriveId`: the capture group after the first `/file/d/`. -/
def pathFileDMatch (path : List Char) : Option (List Char) :=
  match splitFirstSub "/file/d/".toList path with
  | some (_, post) =>
    let id := post.takeWhile fun c => !(c == '/')
    if id = [] then none else some id
  | none => none

/-- The bare-id regex `/^[A-Za-z0-9_-]{20,}$/` from `extractDriveId`. -/
def isBareDriveId (url : String) : Bool :=
  20 ≤ url.length && url.toList.all fun c => c.isAlpha || c.isDigit || c == '_' || c == '-'

/-- Model of `extractDriveId` (utils/drive.ts).  Note that the whole body
after the guard sits inside `try { const u = new URL(url); ... } catch {
return null }`, so when the `URL` constructor throws — as it does for a
bare id, which has no scheme — the function returns `null` without ever
reaching the bare-id regex test. -/
def extractDriveId (url : String) : Option String :=
  if url = "" then none
  else
    match jsNewURL url with
    | none => none
    | some u =>
      match pathFileDMatch u.pathname with
      | some id => some (String.mk id)
      | none =>
        match lookupAssoc "id" u.search with
        | some id =>
          if id ≠ "" then some id
          else if isBareDriveId url then some url else none
        | none => if isBareDriveId url then some url else none

/-- Model of `driveImageCandidates` (utils/drive.ts). -/
def driveImageCandidates (raw : String) : List String :=
  match extractDriveId raw with
  | none => [raw]
  | some id =>
    [ "https://drive.google.com/uc?export=download&id=" ++ id,
      "https://drive.google.com/uc?export=view&id=" ++ id,
      "https://drive.google.com/thumbnail?id=" ++ id ++ "&sz=w2000",
      "https://lh3.googleusercontent.com/d/" ++ id ++ "=s2048" ]

/- ===== components/CanvasComposer.tsx : NetworkImage candidate list ===== -/

/-- The candidate list built by `NetworkImage` (CanvasComposer.tsx) from the
resolved reference string:
`resolved && resolved.startsWith('http') ? [resolved] : driveImageCandidates(resolved || '')`. -/
def networkImageCandidates (resolved : String) : List String :=
  if (resolved != "") && startsWithStr "http" resolved then [resolved]
  else driveImageCandidates resolved

example : driveImageCandidates "https://drive.google.com/file/d/1a2B3c4D5e6F7g8H9i0Jk/view?usp=sharing"
    = [ "https://drive.google.com/uc?export=download&id=1a2B3c4D5e6F7g8H9i0Jk",
        "https://drive.google.com/uc?export=view&id=1a2B3c4D5e6F7g8H9i0Jk",
        "https://drive.google.com/thumbnail?id=1a2B3c4D5e6F7g8H9i0Jk&sz=w2000",
        "https://lh3.googleusercontent.com/d/1a2B3c4D5e6F7g8H9i0Jk=s2048" ] := by decide
example : driveImageCandidates "1a2B3c4D5e6F7g8H9i0Jk" = ["1a2B3c4D5e6F7g8H9i0Jk"] := by decide
example : networkImageCandidates "https://drive.google.com/file/d/1a2B3c4D5e6F7g8H9i0Jk/view?usp=sharing"
    = ["https://drive.google.com/file/d/1a2B3c4D5e6F7g8H9i0Jk/view?usp=sharing"] := by decide

/- ===== components/FitStage.tsx and App.tsx : viewport & PNG export ===== -/

/-- Fit-width scale from FitStage.tsx:
`availW = Math.max(200, el.clientWidth - 24); fitScale = availW / designW`. -/
def fitWidthScale (clientWidth designW : ℚ) : ℚ := max 200 (clientWidth - 24) / designW

/-- On-screen scale chosen by FitStage: `s = fitOn ? fitScale : zoom`. -/
def stageScale (clientWidth designW zoom : ℚ) (fitOn : Bool) : ℚ :=
  if fitOn then fitWidthScale clientWidth designW else zoom

/-- Pixel size the Konva `Stage` is given by FitStage:
`setSize({ w: designW*s, h: designH*s })` with `scaleX = scaleY = s`. -/
def fitStageSize (clientWidth designW designH zoom : ℚ) (fitOn : Bool) : ℚ × ℚ :=
  let s := stageScale clientWidth designW zoom fitOn
  (designW * s, designH * s)

/-- Output pixel size of Konva `Stage.toDataURL`, per Konva's documented
semantics: the stage's current width/height attributes multiplied by the
requested `pixelRatio` (second argument `pr`). -/
def toDataURLSize (stageSize : ℚ × ℚ) (pr : ℚ) : ℚ × ℚ :=
  (stageSize.1 * pr, stageSize.2 * pr)

/-- Pixel size of the PNG produced by `downloadCurrent` (App.tsx): the stage
rendered by `FitStage` at the current zoom / fit state, captured with
`s.toDataURL({ pixelRatio: 2 })`. -/
def downloadCurrentSize (clientWidth zoom : ℚ) (fitOn : Bool) : ℚ × ℚ :=
  toDataURLSize (fitStageSize clientWidth CANVAS_W CANVAS_H zoom fitOn) 2

/- ===== utils/format.ts : normalizePrice ===== -/

/-- Characters kept by `s.replace(/[^0-9.\-]/g,'')` in `normalizePrice`. -/
def priceKeepChar (c : Char) : Bool := c.isDigit || c == '.' || c == '-'

/-- Numeric value of a list of decimal digit characters. -/
def natOfDigits (ds : List Char) : ℕ := ds.foldl (fun a c => a * 10 + (c.toNat - 48)) 0

/-- A finite decimal as parsed by `parseFloat` from a digits-and-dot string:
sign, integer part, fraction digits value and fraction length; the value
represented is `(-1)^neg * (ip + fn / 10^fl)`.  (JS doubles are modelled as
exact decimals; binary rounding of the least-significant bits is not
modelled, which does not affect any sign or digit-shape property proved
here.) -/
structure JsDecimal where
  neg : Bool
  ip : ℕ
  fn : ℕ
  fl : ℕ
  deriving Repr, DecidableEq

/-- Exact value of a parsed decimal, for specification statements. -/
def JsDecimal.val (d : JsDecimal) : ℚ :=
  (if d.neg then -1 else 1) * ((d.ip : ℚ) + (d.fn : ℚ) / 10 ^ d.fl)

/-- Optional leading sign, as accepted by `parseFloat`. -/
def jsSignSplit (s : List Char) : Bool × List Char :=
  match s with
  | [] => (false, [])
  | c :: r => if c = '-' then (true, r) else if c = '+' then (false, r) else (false, c :: r)

/-- Model of `parseFloat` restricted to the character set that survives the
strip in `normalizePrice` (digits, `.`, `-`): parse the longest prefix
`[+-]? digits* (. digits*)?`; `NaN` (no digit in the prefix) is `none`. -/
def jsParseFloat (s : List Char) : Option JsDecimal :=
  let (neg, rest) := jsSignSplit s
  let intDs := rest.takeWhile Char.isDigit
  let rest2 := rest.drop intDs.length
  let fracDs :=
    match rest2 with
    | '.' :: r => r.takeWhile Char.isDigit
    | _ => []
  if intDs = [] ∧ fracDs = [] then none
  else some ⟨neg, natOfDigits intDs, natOfDigits fracDs, fracDs.length⟩

/-- Decimal digit characters of a natural number (fuel-based long division;
the fuel `n` itself always suffices). -/
def natDecimalAux : ℕ → ℕ → List Char → List Char
  | 0, _, acc => acc
  | Nat.succ f, n, acc =>
    if n = 0 then acc else natDecimalAux f (n / 10) (Nat.digitChar (n % 10) :: acc)

/-- Decimal representation of a natural number (model of JS number-to-string
for integers). -/
def natDecimalRepr (n : ℕ) : List Char :=
  if n = 0 then ['0'] else natDecimalAux n n []

/-- Two-digit zero-padded rendering of `n % 100`. -/
def pad2 (n : ℕ) : List Char := [Nat.digitChar (n / 10 % 10), Nat.digitChar (n % 10)]

/-- Model of `Number.prototype.toFixed(2)` (ECMA-262) for finite decimals
below the 10^21 threshold at which `toFixed` falls back to exponential
`ToString`: split off the sign, round the magnitude to an integer count of
cents (ties toward the larger count), and render `<int>.<2 digits>`. -/
def jsToFixed2 (d : JsDecimal) : List Char :=
  let cents := d.ip * 100 + (d.fn * 200 + 10 ^ d.fl) / (2 * 10 ^ d.fl)
  let mag := natDecimalRepr (cents / 100) ++ '.' :: pad2 (cents % 100)
  if d.neg ∧ (d.ip ≠ 0 ∨ d.fn ≠ 0) then '-' :: mag else mag

/-- Model of `normalizePrice` (utils/format.ts) on the characters of the
input: `const s=String(p??'').trim(); const n=parseFloat(s.replace(/[^0-9.\-]/g,''));
if (isNaN(n)) return '$0.00'; return `$` + n.toFixed(2)`. -/
def normalizePriceL (l : List Char) : List Char :=
  match jsParseFloat ((trimChars l).filter priceKeepChar) with
  | none => ['$', '0', '.', '0', '0']
  | some d => '$' :: jsToFixed2 d

/-- String-level `normalizePrice`. -/
def normalizePrice (p : String) : String := String.mk (normalizePriceL p.toList)

/-- Tail of the price pattern after the leading digits: a dot then exactly
two digits. -/
def priceTail : List Char → Bool
  | c :: d1 :: d2 :: [] => (c == '.') && d1.isDigit && d2.isDigit
  | _ => false

/-- The spec's price invariant `/^\$\d+\.\d{2}$/`: a dollar sign, one or
more digits, a dot, exactly two digits. -/
def matchesPricePatternL : List Char → Bool
  | [] => false
  | c :: rest =>
    (c == '$')
    && !(rest.takeWhile Char.isDigit).isEmpty
    && priceTail (rest.dropWhile Char.isDigit)

/-- String-level price-pattern check. -/
def matchesPricePattern (s : String) : Bool := matchesPricePatternL s.toList

example : normalizePrice "12.3" = "$12.30" := by decide
example : normalizePrice "abc" = "$0.00" := by decide
example : normalizePrice "-5" = "$-5.00" := by decide
example : matchesPricePattern "$12.30" = true := by decide
example : matchesPricePattern "$-5.00" = false := by decide
example : normalizePrice " $ 1,299.999 " = "$1300.00" := by decide

/- ===== utils/xlsx.ts : workbook parsing ===== -/

/-- Issue severity (`level: 'error' | 'warning'`). -/
inductive IssueLevel
  | error
  | warning
  deriving Repr, DecidableEq, BEq

/-- `WorkbookIssue` from utils/xlsx.ts. -/
structure WorkbookIssue where
  level : IssueLevel
  code : String
  message : String
  sheet : Option String := none
  row : Option ℕ := none
  column : Option String := none
  deriving Repr, DecidableEq

/-- `WorkbookData` from utils/xlsx.ts. -/
structure WorkbookData where
  featured : List FeaturedItem
  grocery : List Row
  frozen : List Row
  meat : List Row
  produce : List Row
  deriving Repr, DecidableEq

/-- `ParseResult` from utils/xlsx.ts. -/
structure ParseResult where
  data : WorkbookData
  issues : List WorkbookIssue
  deriving Repr, DecidableEq

/-- One spreadsheet row as produced by `XLSX.utils.sheet_to_json` with
`defval: ''`: a record from column name to cell text (`String(v)` of the
cell value). -/
abbrev SheetRec := List (String × String)

/-- A workbook that `XLSX.read` managed to read: its sheets in
`SheetNames` order, each with its json rows. -/
abbrev Workbook := List (String × List SheetRec)

def REQUIRED_SHEETS : List String :=
  ["Featured Items", "Grocery", "Frozen Foods", "Meat", "Produce"]

/-- `COLS.featured` from utils/xlsx.ts. -/
def featuredCols : List String := ["Product Name", "Size", "Price", "Image File"]

/-- `COLS.rows` from utils/xlsx.ts. -/
def rowCols : List String := ["Product Name", "Size", "Price"]

/-- `join(', ')` / `join(' | ')` on string lists. -/
def joinSep (sep : String) : List String → String
  | [] => ""
  | [x] => x
  | x :: xs => x ++ sep ++ joinSep sep xs

/-- `toStr` from utils/xlsx.ts: `String(v).trim()` (cells are already
modelled as their `String(v)` text). -/
def toStr (v : String) : String := String.mk (trimChars v.toList)

/-- `cellStr(r, key)` from utils/xlsx.ts: `toStr(r?.[key])`, with a missing
key giving `''`. -/
def cellStr (r : SheetRec) (key : String) : String :=
  toStr ((lookupAssoc key r).getD "")

/-- `haveColumns` from utils/xlsx.ts: an empty sheet passes; otherwise every
needed column must be a key of the first row. -/
def haveColumns (rows : List SheetRec) (needed : List String) : Bool :=
  match rows with
  | [] => true
  | r0 :: _ => needed.all fun col => (lookupAssoc col r0).isSome

/-- The `raw.forEach` loop body of `parseFeaturedRows`: walks the rows with
their (2-based) spreadsheet row numbers and returns the kept items, the
number of dropped rows and the per-row issues, in row order. -/
def collectFeatured : List SheetRec → ℕ → List FeaturedItem × ℕ × List WorkbookIssue
  | [], _ => ([], 0, [])
  | r :: rest, i =>
    let rowNum := i + 2
    let name := cellStr r "Product Name"
    let size := cellStr r "Size"
    let price := toStr ((lookupAssoc "Price" r).getD "")
    let imageUrl := cellStr r "Image File"
    let (out, dropped, iss) := collectFeatured rest (i + 1)
    if name = "" then
      (out, dropped + 1,
        { level := IssueLevel.warning, code := "featured_missing_name",
          message := "Featured row " ++ toString rowNum
            ++ " skipped: “Product Name” is required.",
          sheet := some "Featured Items", row := some rowNum,
          column := some "Product Name" } :: iss)
    else
      (⟨name, size, price, imageUrl⟩ :: out, dropped,
        (if price = "" then
          [{ level := IssueLevel.warning, code := "featured_missing_price",
             message := "Featured row " ++ toString rowNum ++ ": “Price” is empty.",
             sheet := some "Featured Items", row := some rowNum,
             column := some "Price" }]
         else []) ++ iss)

/-- Model of `parseFeaturedRows` (utils/xlsx.ts), returning the parsed items
together with the issues it pushes.  The result is capped to the first 9
items (`out.slice(0, 9)`). -/
def parseFeaturedRows (raw : Option (List SheetRec)) : List FeaturedItem × List WorkbookIssue :=
  match raw with
  | none => ([], [])
  | some rows =>
    if !haveColumns rows featuredCols then
      ([], [{ level := IssueLevel.error, code := "missing_columns_featured",
              message := "“Featured Items” is missing one or more required columns: "
                ++ joinSep ", " featuredCols,
              sheet := some "Featured Items" }])
    else
      let (out, dropped, iss) := collectFeatured rows 0
      let tail :=
        if out = [] ∧ rows ≠ [] then
          [{ level := IssueLevel.error, code := "featured_no_valid_rows",
             message := "“Featured Items” could not be parsed into any valid items.",
             sheet := some "Featured Items" }]
        else if 0 < dropped then
          [{ level := IssueLevel.warning, code := "featured_dropped_rows",
             message := "Some Featured rows were skipped due to missing required fields.",
             sheet := some "Featured Items" }]
        else []
      (out.take 9, iss ++ tail)

/-- The `raw.forEach` loop of `parseSimpleRows`: keeps named rows, counts
dropped ones, and warns once at the first dropped row (`dropped === 1`). -/
def collectSimple (sheetName : String) : List SheetRec → ℕ → List Row × ℕ × List WorkbookIssue
  | [], d => ([], d, [])
  | r :: rest, d =>
    let name := cellStr r "Product Name"
    if name = "" then
      let d1 := d + 1
      let (out, dt, iss) := collectSimple sheetName rest d1
      (out, dt,
        (if d1 = 1 then
          [{ level := IssueLevel.warning, code := "rows_missing_name",
             message := "Some rows in “" ++ sheetName
               ++ "” were skipped because “Product Name” is required.",
             sheet := some sheetName }]
         else []) ++ iss)
    else
      let (out, dt, iss) := collectSimple sheetName rest d
      (⟨name, cellStr r "Size", toStr ((lookupAssoc "Price" r).getD "")⟩ :: out, dt, iss)

/-- Model of `parseSimpleRows` (utils/xlsx.ts). -/
def parseSimpleRows (raw : Option (List SheetRec)) (sheetName : String) :
    List Row × List WorkbookIssue :=
  match raw with
  | none => ([], [])
  | some rows =>
    if !haveColumns rows rowCols then
      ([], [{ level := IssueLevel.error, code := "missing_columns_rows",
              message := "“" ++ sheetName ++ "” is missing one or more required columns: "
                ++ joinSep ", " rowCols,
              sheet := some sheetName }])
    else
      let (out, _, iss) := collectSimple sheetName rows 0
      let tail :=
        if out = [] ∧ rows ≠ [] then
          [{ level := IssueLevel.error, code := "rows_no_valid_rows",
             message := "“" ++ sheetName ++ "” has no valid rows after parsing.",
             sheet := some sheetName }]
        else []
      (out, iss ++ tail)

/-- Model of `isIgnoredSheet` (utils/xlsx.ts): the AutoCrat patterns,
lower-cased matching; the `\b` word boundary of the first pattern is
approximated by plain prefix + containment, and `/^autocrat job/i` is
subsumed by `/^autocrat/i` exactly as in the source. -/
def isIgnoredSheet (name : String) : Bool :=
  let l := name.toList.map Char.toLower
  (match dropLeading "do not delete".toList l with
   | some rest => containsSub "autocrat".toList rest
   | none => false)
  || (dropLeading "autocrat".toList l).isSome

/-- Model of `parseWorkbookDetailed` (utils/xlsx.ts).  The only operation in
the source that can throw, `XLSX.read`, is wrapped in `try/catch`; it is
modelled by the `Option Workbook` input (`none` = the read threw).  Every
other path is a total computation, so the function always returns a
`ParseResult`. -/
def parseWorkbookDetailed (input : Option Workbook) : ParseResult :=
  match input with
  | none =>
    { data := ⟨[], [], [], [], []⟩
      issues := [{ level := IssueLevel.error, code := "read_failed",
                   message := "Could not read your spreadsheet. Ensure it is a valid .xlsx file (Excel workbook)." }] }
  | some wb =>
    let sheetNames := wb.map Prod.fst
    let missing := REQUIRED_SHEETS.filter fun n => !(sheetNames.contains n)
    let missingIssues :=
      if missing = [] then [] else
        [{ level := IssueLevel.error, code := "missing_sheets",
           message := "Missing required sheet" ++ (if 1 < missing.length then "s" else "")
             ++ ": " ++ joinSep ", " missing ++ "." }]
    let extras := (sheetNames.filter fun n => !(REQUIRED_SHEETS.contains n)).filter
      fun n => !(isIgnoredSheet n)
    let extraIssues :=
      if extras = [] then [] else
        [{ level := IssueLevel.warning, code := "unexpected_sheets",
           message := "Found sheet" ++ (if 1 < extras.length then "s" else "")
             ++ " we don’t use: " ++ joinSep ", " extras ++ "." }]
    let f := parseFeaturedRows (lookupAssoc "Featured Items" wb)
    let g := parseSimpleRows (lookupAssoc "Grocery" wb) "Grocery"
    let fr := parseSimpleRows (lookupAssoc "Frozen Foods" wb) "Frozen Foods"
    let m := parseSimpleRows (lookupAssoc "Meat" wb) "Meat"
    let pr := parseSimpleRows (lookupAssoc "Produce" wb) "Produce"
    { data := ⟨f.1, g.1, fr.1, m.1, pr.1⟩
      issues := missingIssues ++ extraIssues ++ f.2 ++ g.2 ++ fr.2 ++ m.2 ++ pr.2 }

/-- Model of the thin wrapper `parseWorkbook` (utils/xlsx.ts): throws (here:
`Except.error`) the joined error messages when any blocking issue exists. -/
def parseWorkbook (input : Option Workbook) : Except String WorkbookData :=
  let r := parseWorkbookDetailed input
  if r.issues.any (fun i => i.level == IssueLevel.error) then
    let msgs := joinSep " | "
      ((r.issues.filter fun i => i.level == IssueLevel.error).map WorkbookIssue.message)
    Except.error (if msgs = "" then "Workbook parse failed." else msgs)
  else Except.ok r.data

/- ===== App.tsx : upload handler ===== -/

/-- The slice of App state that `onUpload` touches: the five data lists and
the `uploadError` message. -/
structure AppDataState where
  featured : List FeaturedItem
  grocery : List Row
  frozen : List Row
  meat : List Row
  produce : List Row
  uploadError : Option String
  deriving Repr, DecidableEq

/-- The single user-facing message set by the `catch` branch of `onUpload`. -/
def uploadErrorMsg : String :=
  "Could not read your spreadsheet. Ensure it is a .xlsx with all required sheets."

/-- Model of `onUpload` (App.tsx): `setUploadError(null)`, then
`parseWorkbook`; on success all five lists are replaced; on a thrown error
only `uploadError` is set to the fixed message and no list setter runs. -/
def onUpload (st : AppDataState) (file : Option Workbook) : AppDataState :=
  match parseWorkbook file with
  | Except.ok d =>
    { featured := d.featured, grocery := d.grocery, frozen := d.frozen,
      meat := d.meat, produce := d.produce, uploadError := none }
  | Except.error _ =>
    { st with uploadError := some uploadErrorMsg }

/- ===== components/FeaturedTable (editing surface) ===== -/

/-- The row added by the `+ Add row` button. -/
def blankFeaturedItem : FeaturedItem := ⟨"", "", "$0.00", ""⟩

/-- Model of the `+ Add row` action: the button is only rendered when
`canAddMore = items.length < 9`, so on a full list the action is a no-op. -/
def addFeaturedRow (items : List FeaturedItem) : List FeaturedItem :=
  if items.length < 9 then items ++ [blankFeaturedItem] else items

/-- The four editable fields of a featured row. -/
inductive FeaturedField
  | name
  | size
  | price
  | imageUrl
  deriving Repr, DecidableEq

/-- `{...copy[i], [k]: v}`. -/
def setFeaturedField (it : FeaturedItem) : FeaturedField → String → FeaturedItem
  | FeaturedField.name, v => { it with name := v }
  | FeaturedField.size, v => { it with size := v }
  | FeaturedField.price, v => { it with price := v }
  | FeaturedField.imageUrl, v => { it with imageUrl := v }

/-- Model of the per-field `update` action:
`copy = [...prev]; copy[i] = {...copy[i], [k]: v}`. -/
def updateFeaturedAt : List FeaturedItem → ℕ → FeaturedField → String → List FeaturedItem
  | [], _, _, _ => []
  | x :: xs, 0, k, v => setFeaturedField x k v :: xs
  | x :: xs, Nat.succ n, k, v => x :: updateFeaturedAt xs n k v

/-- Model of the `remove` action: `copy.splice(i, 1)`. -/
def removeAt {α : Type} : List α → ℕ → List α
  | [], _ => []
  | _ :: xs, 0 => xs
  | x :: xs, Nat.succ n => x :: removeAt xs n

/-- Insertion at an index with JS `splice` clamping (an index past the end
appends). -/
def insertAt {α : Type} : List α → ℕ → α → List α
  | l, 0, a => a :: l
  | [], Nat.succ _, a => [a]
  | x :: xs, Nat.succ n, a => x :: insertAt xs n a

/-- Model of dnd-kit's `arrayMove` as used by `onDragEnd`: take the element
at `fromIdx` out and re-insert it at `toIdx`.  (`onDragEnd` only calls it
with indices of rendered rows, so `fromIdx` is in range.) -/
def arrayMove {α : Type} (l : List α) (fromIdx toIdx : ℕ) : List α :=
  match l[fromIdx]? with
  | some a => insertAt (removeAt l fromIdx) toIdx a
  | none => l

example : (parseWorkbookDetailed (some [])).issues.any
    (fun i => i.level == IssueLevel.error) = true := by decide
example : (onUpload ⟨[⟨"a","b","$1.00",""⟩], [], [], [], [], none⟩ (some [])).featured
    = [⟨"a","b","$1.00",""⟩] := by decide

/- ===== Theorems for the claims ===== -/

/-- C1: in the Groups (stacked) layout, for any three row lists and a common
font scale, each later section's top offset equals the previous section's
top offset plus the previous section's computed height plus half the later
section's own row height; in particular for row counts (3,5,2) section 2's
top offset is section 1's top + section 1's height + 0.5 × section 2's row
height. -/
theorem groups_stacking_offsets (frozen meat produce : List Row) (scale : ℚ) :
    (groupsOffsets frozen meat produce scale).2.1
      = (groupsOffsets frozen meat produce scale).1
        + (sectionMetrics frozen.length scale).height
        + (sectionMetrics meat.length scale).rowH / 2
    ∧ (groupsOffsets frozen meat produce scale).2.2
      = (groupsOffsets frozen meat produce scale).2.1
        + (sectionMetrics meat.length scale).height
        + (sectionMetrics produce.length scale).rowH / 2
    ∧ (groupsOffsets (List.replicate 3 (⟨"", "", ""⟩ : Row))
        (List.replicate 5 (⟨"", "", ""⟩ : Row))
        (List.replicate 2 (⟨"", "", ""⟩ : Row)) scale).2.1
      = 580 + (sectionMetrics 3 scale).height + (sectionMetrics 5 scale).rowH / 2 := by
  refine ⟨?_, ?_, ?_⟩ <;> simp [groupsOffsets] <;> ring

/-- C2: for every row count the density scale equals
`clamp(30 / max(rowCount,1), 0.85, 1.0)` and lies in `[0.85, 1.0]`, and for
any fixed font scale the row height at rowCount = 1 is at least the row
height at rowCount = 30. -/
theorem densityScale_clamped_rowH_monotone (n : ℕ) (f : ℚ) :
    densityScale n = clamp (30 / ((max n 1 : ℕ) : ℚ)) (85/100) 1
    ∧ 85/100 ≤ densityScale n
    ∧ densityScale n ≤ 1
    ∧ (sectionMetrics 30 f).rowH ≤ (sectionMetrics 1 f).rowH := by
  refine ⟨rfl, le_max_left _ _, max_le (by norm_num) (min_le_left _ _), ?_⟩
  norm_num [sectionMetrics, densityScale, clamp, max_def, min_def]

/-- C3: the price-badge sizer steps its scale by price-string length
(≥6 → 1.28, 5 → 1.16, 4 → 1.06, ≤3 → 0.96) and produces width 240 × scale,
height 130 × scale and font (60 if length ≥ 5 else 56) × scale; the price
"$1234.56" (8 characters) falls in the 1.28 bucket with width exactly
240 × 1.28. -/
theorem priceBadge_scale_steps (p : String) :
    (6 ≤ p.length → priceBadgeScale p = 128/100)
    ∧ (p.length = 5 → priceBadgeScale p = 116/100)
    ∧ (p.length = 4 → priceBadgeScale p = 106/100)
    ∧ (p.length ≤ 3 → priceBadgeScale p = 96/100)
    ∧ (priceBadgeGeom p).W = 240 * priceBadgeScale p
    ∧ (priceBadgeGeom p).H = 130 * priceBadgeScale p
    ∧ (priceBadgeGeom p).font = (if 5 ≤ p.length then (60:ℚ) else 56) * priceBadgeScale p
    ∧ priceBadgeScale "$1234.56" = 128/100
    ∧ (priceBadgeGeom "$1234.56").W = 240 * (128/100) := by
  have h8 : (6 ≤ "$1234.56".length) := by decide
  have hscale : priceBadgeScale "$1234.56" = 128/100 := by
    simp only [priceBadgeScale]
    rw [if_pos h8]
  refine ⟨?_, ?_, ?_, ?_, rfl, rfl, rfl, hscale, ?_⟩
  · intro h
    simp only [priceBadgeScale]
    rw [if_pos h]
  · intro h
    simp only [priceBadgeScale]
    rw [if_neg (by omega), if_pos (by omega)]
  · intro h
    simp only [priceBadgeScale]
    rw [if_neg (by omega), if_neg (by omega), if_pos (by omega)]
  · intro h
    simp only [priceBadgeScale]
    rw [if_neg (by omega), if_neg (by omega), if_neg (by omega)]
  · show 240 * priceBadgeScale "$1234.56" = 240 * (128/100)
    rw [hscale]

/-- Witness for C3: the four buckets hit at concrete price strings of
lengths 7, 5, 4 and 3. -/
theorem priceBadge_scale_steps_witness :
    priceBadgeScale "$123456" = 128/100
    ∧ priceBadgeScale "$5.00" = 116/100
    ∧ priceBadgeScale "$500" = 106/100
    ∧ priceBadgeScale "$50" = 96/100 :=
  ⟨(priceBadge_scale_steps "$123456").1 (by decide),
   (priceBadge_scale_steps "$5.00").2.1 (by decide),
   (priceBadge_scale_steps "$500").2.2.1 (by decide),
   (priceBadge_scale_steps "$50").2.2.2.1 (by decide)⟩

/-- C4 counterexample: the claim puts "$5.00" (5 characters) in the
0.96–1.06 bucket, but the code computes scale 1.16 for it, which is not in
that bucket. -/
theorem badge_five_dollar_cex :
    priceBadgeScale "$5.00" = 116/100
    ∧ ¬ (96/100 ≤ priceBadgeScale "$5.00" ∧ priceBadgeScale "$5.00" ≤ 106/100) := by
  have h : "$5.00".length = 5 := by decide
  have hs : priceBadgeScale "$5.00" = 116/100 := by
    simp only [priceBadgeScale, h]
    norm_num
  exact ⟨hs, by rw [hs]; norm_num⟩

/-- C4 amended: the price string "$5.00" (5 characters including the dollar
sign) is sized with the 1.16 scale factor — the ≥ 5 characters bucket. -/
theorem badge_five_dollar_amended : priceBadgeScale "$5.00" = 116/100 := by
  have h : "$5.00".length = 5 := by decide
  simp only [priceBadgeScale, h]
  norm_num

/-- C10: `parseWorkbookDetailed` is total by construction (it is a plain
function on `Option Workbook`; the only throwing call in the source,
`XLSX.read`, is caught and modelled by the `none` input), and on an
unreadable workbook it returns empty arrays for all five categories plus a
level-error issue with code `read_failed`. -/
theorem parseWorkbookDetailed_read_failed :
    (parseWorkbookDetailed none).data.featured = []
    ∧ (parseWorkbookDetailed none).data.grocery = []
    ∧ (parseWorkbookDetailed none).data.frozen = []
    ∧ (parseWorkbookDetailed none).data.meat = []
    ∧ (parseWorkbookDetailed none).data.produce = []
    ∧ (parseWorkbookDetailed none).issues.any
        (fun i => i.level == IssueLevel.error && i.code == "read_failed") = true := by
  decide

/-- C5 (code evaluated at the failing inputs): a Drive share URL is passed
through `NetworkImage` as a single verbatim candidate (the `startsWith
('http')` shortcut fires before `driveImageCandidates` is consulted), and a
bare Drive id — although it satisfies the bare-id pattern — yields the
single-element list `[raw]` because `new URL(bareId)` throws before the
pattern test runs; `driveImageCandidates` produces the documented 4-element
ordered list only when handed the share URL directly, which `NetworkImage`
never does for http(s) references. -/
theorem drive_candidates_failing_inputs :
    networkImageCandidates "https://drive.google.com/file/d/1a2B3c4D5e6F7g8H9i0Jk/view?usp=sharing"
      = ["https://drive.google.com/file/d/1a2B3c4D5e6F7g8H9i0Jk/view?usp=sharing"]
    ∧ networkImageCandidates "1a2B3c4D5e6F7g8H9i0Jk" = ["1a2B3c4D5e6F7g8H9i0Jk"]
    ∧ extractDriveId "1a2B3c4D5e6F7g8H9i0Jk" = none
    ∧ isBareDriveId "1a2B3c4D5e6F7g8H9i0Jk" = true
    ∧ driveImageCandidates "https://drive.google.com/file/d/1a2B3c4D5e6F7g8H9i0Jk/view?usp=sharing"
      = [ "https://drive.google.com/uc?export=download&id=1a2B3c4D5e6F7g8H9i0Jk",
          "https://drive.google.com/uc?export=view&id=1a2B3c4D5e6F7g8H9i0Jk",
          "https://drive.google.com/thumbnail?id=1a2B3c4D5e6F7g8H9i0Jk&sz=w2000",
          "https://lh3.googleusercontent.com/d/1a2B3c4D5e6F7g8H9i0Jk=s2048" ] := by
  decide

/-- C7 (code evaluated at the failing input): with fit off, exporting at
zoom 100% gives a 5100 × 6600 PNG while zoom 50% gives 2550 × 3300 — the
exported pixel dimensions follow the on-screen stage size times the fixed
pixelRatio 2, so they do depend on the current zoom, contrary to the
claim. -/
theorem export_size_zoom_dependent :
    downloadCurrentSize 1000 1 false = (5100, 6600)
    ∧ downloadCurrentSize 1000 (1/2) false = (2550, 3300)
    ∧ downloadCurrentSize 1000 1 false ≠ downloadCurrentSize 1000 (1/2) false := by
  refine ⟨?_, ?_, ?_⟩ <;>
    norm_num [downloadCurrentSize, toDataURLSize, fitStageSize, stageScale,
      CANVAS_W, CANVAS_H, Prod.ext_iff]

/-- C6: when the uploaded workbook produces any blocking (level error)
issue, `onUpload` sets the single fixed user-facing message and leaves all
five previously loaded lists exactly as they were. -/
theorem upload_error_preserves_state (st : AppDataState) (wb : Option Workbook)
    (h : (parseWorkbookDetailed wb).issues.any (fun i => i.level == IssueLevel.error) = true) :
    (onUpload st wb).featured = st.featured
    ∧ (onUpload st wb).grocery = st.grocery
    ∧ (onUpload st wb).frozen = st.frozen
    ∧ (onUpload st wb).meat = st.meat
    ∧ (onUpload st wb).produce = st.produce
    ∧ (onUpload st wb).uploadError = some uploadErrorMsg := by
  simp [onUpload, parseWorkbook, h]

/-- Witness for C6: an empty workbook (all five required sheets missing) is
a blocking error; a state holding one featured item and one grocery row is
left untouched, with the message set. -/
theorem upload_error_preserves_state_witness :
    (onUpload ⟨[⟨"Milk", "2L", "$4.99", ""⟩], [⟨"Bread", "1", "$2.00"⟩], [], [], [], none⟩
        (some [])).featured = [⟨"Milk", "2L", "$4.99", ""⟩]
    ∧ (onUpload ⟨[⟨"Milk", "2L", "$4.99", ""⟩], [⟨"Bread", "1", "$2.00"⟩], [], [], [], none⟩
        (some [])).grocery = [⟨"Bread", "1", "$2.00"⟩]
    ∧ (onUpload ⟨[⟨"Milk", "2L", "$4.99", ""⟩], [⟨"Bread", "1", "$2.00"⟩], [], [], [], none⟩
        (some [])).uploadError = some uploadErrorMsg :=
  ⟨(upload_error_preserves_state _ _ (by decide)).1,
   (upload_error_preserves_state _ _ (by decide)).2.1,
   (upload_error_preserves_state _ _ (by decide)).2.2.2.2.2⟩

/- ===== length lemmas for the featured editing operations ===== -/

theorem updateFeaturedAt_length (l : List FeaturedItem) :
    ∀ (i : ℕ) (k : FeaturedField) (v : String),
      (updateFeaturedAt l i k v).length = l.length := by
  induction l with
  | nil => intro i k v; rfl
  | cons x xs ih =>
    intro i k v
    cases i with
    | zero => rfl
    | succ n => simp [updateFeaturedAt, ih]

theorem removeAt_length_le {α : Type} (l : List α) :
    ∀ i : ℕ, (removeAt l i).length ≤ l.length := by
  induction l with
  | nil => intro i; simp [removeAt]
  | cons x xs ih =>
    intro i
    cases i with
    | zero => simp [removeAt]
    | succ n => simpa [removeAt] using ih n

theorem removeAt_length_of_lt {α : Type} (l : List α) :
    ∀ i : ℕ, i < l.length → (removeAt l i).length + 1 = l.length := by
  induction l with
  | nil => intro i h; simp at h
  | cons x xs ih =>
    intro i h
    cases i with
    | zero => rfl
    | succ n => simpa [removeAt] using ih n (by simpa using h)

theorem insertAt_length {α : Type} (l : List α) :
    ∀ (i : ℕ) (a : α), (insertAt l i a).length = l.length + 1 := by
  induction l with
  | nil => intro i a; cases i <;> rfl
  | cons x xs ih =>
    intro i a
    cases i with
    | zero => rfl
    | succ n => simp [insertAt, ih]

theorem arrayMove_length {α : Type} (l : List α) (i j : ℕ) :
    (arrayMove l i j).length = l.length := by
  unfold arrayMove
  cases hget : l[i]? with
  | none => rfl
  | some a =>
    have hi : i < l.length := by
      by_contra hge
      rw [List.getElem?_eq_none (by omega)] at hget
      exact Option.noConfusion hget
    rw [insertAt_length, removeAt_length_of_lt l i hi]

/-- C9: every editing operation of the featured table preserves the ≤ 9
cap — adding to a full list of 9 is a no-op, per-field updates, removals
and drag-reorders never increase the length — and spreadsheet import caps
the parsed featured list at the first 9 items. -/
theorem featured_cap_invariant (items : List FeaturedItem) (h : items.length ≤ 9) :
    (addFeaturedRow items).length ≤ 9
    ∧ (∀ (i : ℕ) (k : FeaturedField) (v : String),
        (updateFeaturedAt items i k v).length ≤ 9)
    ∧ (∀ i : ℕ, (removeAt items i).length ≤ 9)
    ∧ (∀ i j : ℕ, (arrayMove items i j).length ≤ 9)
    ∧ (items.length = 9 → addFeaturedRow items = items)
    ∧ (∀ raw : Option (List SheetRec), (parseFeaturedRows raw).1.length ≤ 9) := by
  refine ⟨?_, ?_, ?_, ?_, ?_, ?_⟩
  · unfold addFeaturedRow
    split
    · rename_i hlt
      simp only [List.length_append, List.length_cons, List.length_nil]
      omega
    · exact h
  · intro i k v; rw [updateFeaturedAt_length]; exact h
  · intro i; exact le_trans (removeAt_length_le items i) h
  · intro i j; rw [arrayMove_length]; exact h
  · intro h9; unfold addFeaturedRow; rw [if_neg (by omega)]
  · intro raw
    cases raw with
    | none => simp [parseFeaturedRows]
    | some rows =>
      by_cases hcols : haveColumns rows featuredCols
      · simp [parseFeaturedRows, hcols, List.length_take]
      · simp [parseFeaturedRows, hcols]

/-- Witness for C9: a concrete full list of 9 items; adding is a no-op and
all operations keep the length within the cap. -/
theorem featured_cap_invariant_witness :
    addFeaturedRow (List.replicate 9 blankFeaturedItem) = List.replicate 9 blankFeaturedItem
    ∧ (addFeaturedRow (List.replicate 9 blankFeaturedItem)).length ≤ 9
    ∧ (removeAt (List.replicate 9 blankFeaturedItem) 0).length ≤ 9 :=
  ⟨(featured_cap_invariant (List.replicate 9 blankFeaturedItem) (by decide)).2.2.2.2.1 (by decide),
   (featured_cap_invariant (List.replicate 9 blankFeaturedItem) (by decide)).1,
   (featured_cap_invariant (List.replicate 9 blankFeaturedItem) (by decide)).2.2.1 0⟩

/- ===== digit-rendering lemmas for the price-pattern proof ===== -/

theorem digitChar_mod_isDigit (n : ℕ) : (Nat.digitChar (n % 10)).isDigit = true := by
  have h : n % 10 = 0 ∨ n % 10 = 1 ∨ n % 10 = 2 ∨ n % 10 = 3 ∨ n % 10 = 4 ∨ n % 10 = 5
      ∨ n % 10 = 6 ∨ n % 10 = 7 ∨ n % 10 = 8 ∨ n % 10 = 9 := by omega
  rcases h with h | h | h | h | h | h | h | h | h | h <;> rw [h] <;> rfl

theorem natDecimalAux_digits (f : ℕ) :
    ∀ (n : ℕ) (acc : List Char), (∀ c ∈ acc, c.isDigit = true) →
      ∀ c ∈ natDecimalAux f n acc, c.isDigit = true := by
  induction f with
  | zero => intro n acc h; simpa [natDecimalAux] using h
  | succ f ih =>
    intro n acc h c hc
    simp only [natDecimalAux] at hc
    split at hc
    · exact h c hc
    · refine ih (n / 10) _ ?_ c hc
      intro x hx
      rcases List.mem_cons.mp hx with h1 | h2
      · rw [h1]; exact digitChar_mod_isDigit n
      · exact h x h2

theorem natDecimalAux_length (f : ℕ) :
    ∀ (n : ℕ) (acc : List Char), acc.length ≤ (natDecimalAux f n acc).length := by
  induction f with
  | zero => intro n acc; exact le_refl _
  | succ f ih =>
    intro n acc
    simp only [natDecimalAux]
    split
    · exact le_refl _
    · exact le_trans (Nat.le_succ _)
        (by simpa using ih (n / 10) (Nat.digitChar (n % 10) :: acc))

theorem natDecimalRepr_digits (n : ℕ) : ∀ c ∈ natDecimalRepr n, c.isDigit = true := by
  unfold natDecimalRepr
  split
  · intro c hc
    rcases List.mem_singleton.mp hc with h
    rw [h]; rfl
  · exact natDecimalAux_digits n n [] (by intro c hc; simp at hc)

theorem natDecimalRepr_ne_nil (n : ℕ) : natDecimalRepr n ≠ [] := by
  unfold natDecimalRepr
  split
  · simp
  · rename_i hn
    cases n with
    | zero => exact absurd rfl hn
    | succ m =>
      intro hnil
      have hstep : natDecimalAux (Nat.succ m) (Nat.succ m) []
          = natDecimalAux m (Nat.succ m / 10) [Nat.digitChar (Nat.succ m % 10)] := by
        simp [natDecimalAux]
      rw [hstep] at hnil
      have hlen := natDecimalAux_length m (Nat.succ m / 10) [Nat.digitChar (Nat.succ m % 10)]
      rw [hnil] at hlen
      simp at hlen

theorem takeWhile_append_stop (p : Char → Bool) (l r : List Char) (x : Char)
    (hl : ∀ c ∈ l, p c = true) (hx : p x = false) :
    (l ++ x :: r).takeWhile p = l ∧ (l ++ x :: r).dropWhile p = x :: r := by
  induction l with
  | nil => simp [List.takeWhile, List.dropWhile, hx]
  | cons a as ih =>
    have ha : p a = true := hl a (List.mem_cons_self a as)
    have ih2 := ih fun c hc => hl c (List.mem_cons_of_mem a hc)
    constructor
    · simp [List.takeWhile, ha, ih2.1]
    · simp [List.dropWhile, ha, ih2.2]

theorem isEmpty_false_of_ne_nil {α : Type} {l : List α} (h : l ≠ []) : l.isEmpty = false := by
  cases l with
  | nil => exact absurd rfl h
  | cons a as => rfl

/-- The rendered magnitude of a non-negative parsed decimal always has the
shape `digits "." digit digit`, so prefixing `$` satisfies the price
pattern. -/
theorem pattern_toFixed_nonneg (ip fn fl : ℕ) :
    matchesPricePatternL ('$' :: jsToFixed2 ⟨false, ip, fn, fl⟩) = true := by
  unfold jsToFixed2
  rw [if_neg (by simp)]
  have hdig := natDecimalRepr_digits ((ip * 100 + (fn * 200 + 10 ^ fl) / (2 * 10 ^ fl)) / 100)
  have hne := natDecimalRepr_ne_nil ((ip * 100 + (fn * 200 + 10 ^ fl) / (2 * 10 ^ fl)) / 100)
  have hsplit := takeWhile_append_stop Char.isDigit
    (natDecimalRepr ((ip * 100 + (fn * 200 + 10 ^ fl) / (2 * 10 ^ fl)) / 100))
    (pad2 ((ip * 100 + (fn * 200 + 10 ^ fl) / (2 * 10 ^ fl)) % 100)) '.' hdig (by decide)
  simp only [matchesPricePatternL, hsplit.1, hsplit.2]
  rw [isEmpty_false_of_ne_nil hne]
  simp [priceTail, pad2, digitChar_mod_isDigit]

/-- C8 counterexample: the input "-5" — its minus sign survives the
character strip `/[^0-9.\-]/g` and `parseFloat` yields a negative value —
normalizes to "$-5.00", which does not match `/^\$\d+\.\d{2}$/`. -/
theorem normalizePrice_pattern_cex :
    normalizePrice "-5" = "$-5.00"
    ∧ matchesPricePattern (normalizePrice "-5") = false := by
  decide

/-- C8 amended: the output of `normalizePrice` matches `/^\$\d+\.\d{2}$/`
whenever the stripped numeric text does not begin with a minus sign (so the
parsed value is NaN or non-negative); the bound on the count of integer
digits keeps the statement inside the regime where the modelled
`toFixed(2)` agrees with ECMA-262 (from 10^21 the real `toFixed` switches
to exponential notation, which also violates the pattern). -/
theorem normalizePrice_pattern_amended (p : String)
    (h1 : ((trimChars p.toList).filter priceKeepChar).head? ≠ some '-')
    (h2 : (((trimChars p.toList).filter priceKeepChar).takeWhile Char.isDigit).length ≤ 21) :
    matchesPricePattern (normalizePrice p) = true := by
  show matchesPricePatternL (normalizePriceL p.toList) = true
  unfold normalizePriceL
  have hsign : jsSignSplit ((trimChars p.toList).filter priceKeepChar)
      = (false, (trimChars p.toList).filter priceKeepChar) := by
    cases htl : (trimChars p.toList).filter priceKeepChar with
    | nil => rfl
    | cons c r =>
      have hmem : c ∈ (trimChars p.toList).filter priceKeepChar := by
        rw [htl]; exact List.mem_cons_self c r
      have hc : priceKeepChar c = true := (List.mem_filter.mp hmem).2
      have hcm : c ≠ '-' := by
        intro hEq
        rw [htl, hEq] at h1
        exact h1 rfl
      have hcp : c ≠ '+' := by
        intro hEq
        rw [hEq] at hc
        exact absurd hc (by decide)
      simp [jsSignSplit, hcm, hcp]
  simp only [jsParseFloat, hsign]
  split
  · decide
  · rename_i d hd
    split at hd
    · exact Option.noConfusion hd
    · cases hd
      exact pattern_toFixed_nonneg _ _ _

/-- Witness for C8 (amended): the input "12.3" strips to "12.3", has no
leading minus and only two integer digits, and indeed normalizes to a
pattern-matching string. -/
theorem normalizePrice_pattern_amended_witness :
    matchesPricePattern (normalizePrice "12.3") = true :=
  normalizePrice_pattern_amended "12.3" (by decide) (by decide)
